import Mathlib

/-!
Verification development for the PDC-Lab-Mid benchmark harness
(sequential_process.py, parallel_process.py, distributed_sim.py).

The development shallowly embeds the harness logic: the task partitioner
of distributed_sim.main, the per-unit process_image wrappers of all three
scripts, the baseline/pool loop of parallel_process.main, the node-result
aggregation of distributed_sim.main, and the per-node output-path
construction of node_worker. Wall-clock times are modelled as rationals
supplied as parameters; Python exceptions are modelled with Except.
-/

namespace PDCLab

/-- NUM_NODES from distributed_sim.py line 19. -/
def NUM_NODES : Nat := 2

/-- math.ceil(total / k) on natural numbers, as used for images_per_node
in distributed_sim.main line 111 (for k at least 1 this is the ceiling
of the true quotient). -/
def images_per_node (total k : Nat) : Nat := (total + k - 1) / k

/-- node_tasks from distributed_sim.main lines 114 to 117: the batch is cut
into exactly two slices, all_image_paths[0 : images_per_node] for node 1 and
all_image_paths[images_per_node :] for node 2. -/
def node_tasks {α : Type} (all_image_paths : List α) : List (List α) :=
  let c := images_per_node all_image_paths.length NUM_NODES
  [all_image_paths.take c, all_image_paths.drop c]

/-- Modelled from the spec: Partitioner.split for a general degree k
(section 4.2). The source only instantiates the split at k = NUM_NODES = 2
(node_tasks); the spec gives the general algorithm: chunk_size = ceil(N/k),
partition i = elements [i*chunk_size, min(N, (i+1)*chunk_size)). The
theorem split_two_eq_node_tasks below proves the model agrees with the
source code at k = 2. -/
def split {α : Type} (units : List α) (k : Nat) : List (List α) :=
  let chunk_size := images_per_node units.length k
  (List.range k).map (fun i => (units.drop (i * chunk_size)).take chunk_size)

theorem images_per_node_pos {total k : Nat} (ht : 0 < total) (hk : 0 < k) :
    0 < images_per_node total k := by
  unfold images_per_node
  apply Nat.div_pos _ hk
  omega

theorem le_mul_images_per_node (total : Nat) {k : Nat} (hk : 0 < k) :
    total ≤ k * images_per_node total k := by
  have h := Nat.div_add_mod (total + k - 1) k
  have hm : (total + k - 1) % k < k := Nat.mod_lt _ hk
  unfold images_per_node
  generalize hq : k * ((total + k - 1) / k) = p at h ⊢
  omega

theorem flatten_chunks {α : Type} (c : Nat) :
    ∀ (k : Nat) (xs : List α), xs.length ≤ k * c →
      ((List.range k).map (fun i => (xs.drop (i * c)).take c)).flatten = xs := by
  intro k
  induction k with
  | zero =>
    intro xs h
    have hx : xs = [] := List.eq_nil_of_length_eq_zero (by omega)
    subst hx
    simp
  | succ k ih =>
    intro xs h
    rw [List.range_succ_eq_map, List.map_cons, List.map_map, List.flatten_cons]
    have hfun : ((fun i => (xs.drop (i * c)).take c) ∘ Nat.succ)
        = fun i => ((xs.drop c).drop (i * c)).take c := by
      funext i
      simp only [Function.comp]
      rw [List.drop_drop]
      congr 2
      calc Nat.succ i * c = i * c + c := Nat.succ_mul i c
        _ = c + i * c := Nat.add_comm _ _

    have h2 : xs.length ≤ k * c + c := by
      have hs : (k + 1) * c = k * c + c := Nat.succ_mul k c
      omega
    have hdrop : (xs.drop c).length ≤ k * c := by
      rw [List.length_drop]
      generalize k * c = m at h2 ⊢
      omega
    rw [hfun, ih (xs.drop c) hdrop]
    simp

/-- The spec-modelled general split agrees with the source node_tasks at
degree NUM_NODES = 2: partition 0 is take c and partition 1 is drop c. -/
theorem split_two_eq_node_tasks {α : Type} (units : List α) :
    split units NUM_NODES = node_tasks units := by
  have hlen : units.length ≤ 2 * images_per_node units.length 2 :=
    le_mul_images_per_node units.length (by decide)
  have hdk : (units.drop (images_per_node units.length 2)).take
      (images_per_node units.length 2) = units.drop (images_per_node units.length 2) := by
    apply List.take_of_length_le
    rw [List.length_drop]
    omega
  simp only [split, node_tasks, NUM_NODES]
  rw [show List.range 2 = [0, 1] from rfl]
  simp only [List.map_cons, List.map_nil, Nat.zero_mul, Nat.one_mul, List.drop_zero]
  rw [hdk]

/-- C2: for every non-empty batch of N work units and every degree k at
least 1, the partitioner output is a disjoint order-preserving cover: the
partition sizes sum to N, concatenating the partitions in ascending node
order reproduces the original sequence exactly, and each value occurs in
the partitions exactly as often as in the batch (every unit lands in
exactly one partition). -/
theorem C2_partition_cover {α : Type} [DecidableEq α] (units : List α) (k : Nat)
    (hk : 1 ≤ k) (hne : units ≠ []) :
    ((split units k).map List.length).sum = units.length ∧
    (split units k).flatten = units ∧
    (∀ a : α, ((split units k).map (fun part => part.count a)).sum = units.count a) := by
  have hflat : (split units k).flatten = units := by
    unfold split
    exact flatten_chunks _ k units (le_mul_images_per_node units.length hk)
  refine ⟨?_, hflat, ?_⟩
  · rw [← List.length_flatten, hflat]
  · intro a
    rw [← List.count_flatten, hflat]

/-- C2 witness: the cover theorem applied to the concrete batch
[10, 20, 30, 40, 50] with k = 2. -/
theorem C2_partition_cover_witness :
    (1 ≤ 2 ∧ [10, 20, 30, 40, 50] ≠ ([] : List Nat)) ∧
    (((split [10, 20, 30, 40, 50] 2).map List.length).sum = 5 ∧
      (split [10, 20, 30, 40, 50] 2).flatten = [10, 20, 30, 40, 50] ∧
      (∀ a : Nat, ((split [10, 20, 30, 40, 50] 2).map (fun part => part.count a)).sum
        = ([10, 20, 30, 40, 50] : List Nat).count a)) :=
  ⟨⟨by decide, by decide⟩, C2_partition_cover [10, 20, 30, 40, 50] 2 (by decide) (by decide)⟩

/-- C3: partition i (0-indexed) of the split with chunk_size =
ceil(N / k) holds exactly the elements [i*chunk_size,
min(N, (i+1)*chunk_size)) of the batch (take truncates at N), and in the
concrete scenario of a batch of 5 units with NUM_NODES = 2, node 1
receives units[0:3] and node 2 receives units[3:5]. -/
theorem C3_partition_slices {α : Type} (units : List α) (k i : Nat) (hik : i < k) :
    (split units k)[i]? =
      some ((units.take ((i + 1) * images_per_node units.length k)).drop
        (i * images_per_node units.length k)) ∧
    (∀ (a b c d e : α), node_tasks [a, b, c, d, e] = [[a, b, c], [d, e]]) := by
  constructor
  · simp only [split]
    rw [List.getElem?_map, List.getElem?_range hik]
    simp only [Option.map_some']
    rw [List.take_drop]
    congr 2
    ring
  · intro a b c d e
    simp [node_tasks, images_per_node, NUM_NODES]

/-- C3 witness: the slice characterization applied to the batch
[10, 20, 30, 40, 50] with k = 2 at partition index 1. -/
theorem C3_partition_slices_witness :
    (1 < 2) ∧
    ((split [10, 20, 30, 40, 50] 2)[1]? =
      some (([10, 20, 30, 40, 50].take (2 * images_per_node 5 2)).drop
        (1 * images_per_node 5 2)) ∧
    (∀ (a b c d e : Nat), node_tasks [a, b, c, d, e] = [[a, b, c], [d, e]])) :=
  ⟨by decide, C3_partition_slices [10, 20, 30, 40, 50] 2 1 (by decide)⟩

/-- A work unit of parallel_process.py: the (input_path, output_path)
tuple built by the enumeration loop of main. -/
structure WorkUnit where
  input_ref : String
  output_ref : String
deriving DecidableEq, Repr

/-- The external PIL behaviour on one unit: whether Image.open (or the
resize/convert/draw pipeline on the opened image) raises, whether
ImageFont.truetype raises IOError, and whether img.save (or makedirs)
raises. These are the fallible operations appearing in the body of
process_image. -/
structure PILBehavior where
  open_err : Option String
  font_err : Bool
  save_err : Option String
deriving DecidableEq, Repr

/-- The font actually used by process_image: arial.ttf when
ImageFont.truetype succeeds, the PIL default font otherwise. -/
inductive Font where
  | truetype
  | fallback
deriving DecidableEq, Repr

/-- The body of process_image inside its outer try block (identical in all
three scripts): opening and transforming may raise, the font load sits in
its own inner try that falls back to load_default on IOError (so a font
failure alone never raises), and saving may raise. Returns the font used
when the body completes. -/
def process_image_body (b : PILBehavior) : Except String Font :=
  match b.open_err with
  | some e => Except.error e
  | none =>
    let font := if b.font_err then Font.fallback else Font.truetype
    match b.save_err with
    | some e => Except.error e
    | none => Except.ok font

/-- The line printed by the outer except handler of process_image. -/
def errMsg (input e : String) : String := "Error processing " ++ input ++ ": " ++ e

/-- process_image from parallel_process.py lines 20 to 54: the outer try
catches every exception from the body, prints the error line and returns
False; on success it returns True. The Except layer models exception
propagation to the caller; the pair carries the returned bool and the
printed lines. -/
def process_image_par (input : String) (b : PILBehavior) :
    Except String (Bool × List String) :=
  match process_image_body b with
  | Except.ok _ => Except.ok (true, [])
  | Except.error e => Except.ok (false, [errMsg input e])

/-- process_image from sequential_process.py lines 16 to 53 and from
distributed_sim.py lines 23 to 40 (the two bodies are identical): the
outer try catches every exception and prints the error line, and the
function falls off the end, returning None in both the success and the
failure case. -/
def process_image_seq (input : String) (b : PILBehavior) :
    Except String (Unit × List String) :=
  match process_image_body b with
  | Except.ok _ => Except.ok ((), [])
  | Except.error e => Except.ok ((), [errMsg input e])

/-- The outcome of one unit under parallel_process.py: the unit, the bool
process_image returned, and the error line it printed, if any. -/
structure Outcome where
  unit : WorkUnit
  success : Bool
  error : Option String
deriving DecidableEq, Repr

/-- The outcome process_image produces for one unit, as a pure function of
the PIL behaviour of that unit. -/
def outcome_of (behav : WorkUnit → PILBehavior) (u : WorkUnit) : Outcome :=
  match process_image_body (behav u) with
  | Except.ok _ => ⟨u, true, none⟩
  | Except.error e => ⟨u, false, some (errMsg u.input_ref e)⟩

/-- One step of the baseline comprehension: run process_image on one unit
and package its outcome. -/
def run_unit (behav : WorkUnit → PILBehavior) (u : WorkUnit) :
    Except String Outcome :=
  (process_image_par u.input_ref (behav u)).map (fun r => ⟨u, r.1, r.2.head?⟩)

/-- The baseline list comprehension of parallel_process.main line 81
(results_seq = [process_image(task) for task in tasks]), and likewise the
sequential loop of sequential_process.main lines 82 to 83: units are
processed left to right and an exception escaping process_image would
abort the remaining units, modelled by the Except short-circuit. -/
def run_batch (behav : WorkUnit → PILBehavior) :
    List WorkUnit → Except String (List Outcome)
  | [] => Except.ok []
  | u :: rest =>
    match run_unit behav u with
    | Except.error e => Except.error e
    | Except.ok o =>
      match run_batch behav rest with
      | Except.error e => Except.error e
      | Except.ok os => Except.ok (o :: os)

theorem run_unit_ok (behav : WorkUnit → PILBehavior) (u : WorkUnit) :
    run_unit behav u = Except.ok (outcome_of behav u) := by
  unfold run_unit process_image_par outcome_of
  cases process_image_body (behav u) <;> simp [Except.map]

theorem run_batch_ok (behav : WorkUnit → PILBehavior) (tasks : List WorkUnit) :
    run_batch behav tasks = Except.ok (tasks.map (outcome_of behav)) := by
  induction tasks with
  | nil => rfl
  | cons u rest ih =>
    rw [run_batch, run_unit_ok, ih]
    rfl

theorem outcome_of_unit (behav : WorkUnit → PILBehavior) (u : WorkUnit) :
    (outcome_of behav u).unit = u := by
  unfold outcome_of
  cases process_image_body (behav u) <;> rfl

theorem countP_bool_split {α : Type} (p : α → Bool) (l : List α) :
    l.countP p + l.countP (fun a => !p a) = l.length := by
  induction l with
  | nil => rfl
  | cons a rest ih =>
    by_cases h : p a = true
    · rw [List.countP_cons_of_pos _ _ h,
        List.countP_cons_of_neg (fun a => !p a) _ (by simp [h]), List.length_cons]
      omega
    · rw [List.countP_cons_of_neg _ _ h,
        List.countP_cons_of_pos (fun a => !p a) _ (by simp [h]), List.length_cons]
      omega

/-- C10: process_image always returns normally, whatever the PIL behaviour:
no exception escapes the function in any of the three scripts. The
parallel_process variant returns True exactly when the body succeeded and
False exactly when it raised; the sequential_process and distributed_sim
variant returns None in both cases, so its return value is the same for
every behaviour and the caller cannot observe whether the unit
succeeded. -/
theorem C10_process_image_never_raises (input : String) (b : PILBehavior) :
    (∃ r, process_image_par input b = Except.ok r) ∧
    (∃ r, process_image_seq input b = Except.ok r) ∧
    ((process_image_par input b).map Prod.fst = Except.ok true ↔
      ∃ f, process_image_body b = Except.ok f) ∧
    ((process_image_par input b).map Prod.fst = Except.ok false ↔
      ∃ e, process_image_body b = Except.error e) ∧
    (∀ b2 : PILBehavior, (process_image_seq input b).map Prod.fst
      = (process_image_seq input b2).map Prod.fst) := by
  refine ⟨?_, ?_, ?_, ?_, ?_⟩
  · unfold process_image_par
    cases process_image_body b <;> exact ⟨_, rfl⟩
  · unfold process_image_seq
    cases process_image_body b <;> exact ⟨_, rfl⟩
  · unfold process_image_par
    cases process_image_body b <;> simp [Except.map]
  · unfold process_image_par
    cases process_image_body b <;> simp [Except.map]
  · intro b2
    unfold process_image_seq
    cases process_image_body b <;> cases process_image_body b2 <;> simp [Except.map]

/-- C4: a transform failure on one unit never aborts the run. If unit u at
position j of the batch fails with reason e, the whole comprehension still
returns normally, the outcome at position j has success = false and
carries the printed error reason, every position still gets the outcome
determined by its own unit alone, and the outcomes list every unit exactly
once in batch order (each unit is processed once, never retried). -/
theorem C4_unit_failure_does_not_abort (behav : WorkUnit → PILBehavior)
    (tasks : List WorkUnit) (j : Nat) (u : WorkUnit) (e : String)
    (hu : tasks[j]? = some u)
    (hfail : process_image_body (behav u) = Except.error e) :
    run_batch behav tasks = Except.ok (tasks.map (outcome_of behav)) ∧
    (tasks.map (outcome_of behav))[j]? =
      some ⟨u, false, some (errMsg u.input_ref e)⟩ ∧
    (tasks.map (outcome_of behav)).map Outcome.unit = tasks ∧
    (∀ (i : Nat) (v : WorkUnit), tasks[i]? = some v →
      (tasks.map (outcome_of behav))[i]? = some (outcome_of behav v)) := by
  refine ⟨run_batch_ok behav tasks, ?_, ?_, ?_⟩
  · rw [List.getElem?_map, hu]
    simp only [Option.map_some']
    unfold outcome_of
    rw [hfail]
  · rw [List.map_map]
    apply List.map_id''
    intro v
    exact outcome_of_unit behav v
  · intro i v hv
    rw [List.getElem?_map, hv]
    rfl

/-- A concrete PIL behaviour for the C4 witness: the unit with input
bad.jpg raises a decode error inside Image.open, every other unit
succeeds. -/
def behavC4 : WorkUnit → PILBehavior := fun u =>
  if u.input_ref = "bad.jpg" then ⟨some "decode error", false, none⟩
  else ⟨none, false, none⟩

/-- C4 witness: a two-unit batch whose first unit fails to decode while the
second succeeds; the failing unit gets a failed Outcome carrying the
printed reason. -/
theorem C4_unit_failure_does_not_abort_witness :
    ([⟨"bad.jpg", "out/bad.jpg"⟩, ⟨"ok.jpg", "out/ok.jpg"⟩] :
        List WorkUnit)[0]? = some ⟨"bad.jpg", "out/bad.jpg"⟩ ∧
    process_image_body (behavC4 ⟨"bad.jpg", "out/bad.jpg"⟩)
      = Except.error "decode error" ∧
    (([⟨"bad.jpg", "out/bad.jpg"⟩, ⟨"ok.jpg", "out/ok.jpg"⟩] :
        List WorkUnit).map (outcome_of behavC4))[0]?
      = some ⟨⟨"bad.jpg", "out/bad.jpg"⟩, false,
          some (errMsg "bad.jpg" "decode error")⟩ :=
  ⟨by decide, by rfl,
    (C4_unit_failure_does_not_abort behavC4
      [⟨"bad.jpg", "out/bad.jpg"⟩, ⟨"ok.jpg", "out/ok.jpg"⟩] 0
      ⟨"bad.jpg", "out/bad.jpg"⟩ "decode error" (by decide) (by rfl)).2.1⟩

/-- C5: every unit of every batch produces exactly one Outcome: the run
returns normally, the outcomes list the units exactly once in batch order,
and the successes and failures together account for the whole batch. -/
theorem C5_outcome_accounting (behav : WorkUnit → PILBehavior)
    (tasks : List WorkUnit) :
    ∃ outcomes, run_batch behav tasks = Except.ok outcomes ∧
      outcomes.length = tasks.length ∧
      outcomes.map Outcome.unit = tasks ∧
      outcomes.countP (fun o => o.success) +
        outcomes.countP (fun o => !o.success) = tasks.length := by
  refine ⟨tasks.map (outcome_of behav), run_batch_ok behav tasks, by simp, ?_, ?_⟩
  · rw [List.map_map]
    apply List.map_id''
    intro v
    exact outcome_of_unit behav v
  · rw [countP_bool_split]
    simp

/-- One row of the results_table of parallel_process.main: worker count,
measured elapsed seconds and speedup. Wall-clock seconds are modelled as
rationals. -/
structure RunRecord where
  worker_count : Int
  elapsed_seconds : ℚ
  speedup : ℚ
deriving DecidableEq, Repr

/-- Python float division: raises ZeroDivisionError when the denominator
is zero, otherwise returns the quotient. -/
def fdiv (a b : ℚ) : Except String ℚ :=
  if b = 0 then Except.error "ZeroDivisionError" else Except.ok (a / b)

/-- The worker-count loop of parallel_process.main lines 101 to 120. For
each count: multiprocessing.Pool raises ValueError when the requested
process count is below one (before any task of that pool run is
dispatched); otherwise the pool processes the whole task list again
(appended to the trace of processed units), the wall time pool_time count
is measured, and speedup = baseline_time / total_time is appended to the
table. An uncaught exception aborts the loop, carrying the trace of the
units processed so far. -/
def pool_loop (tasks : List WorkUnit) (baseline_time : ℚ) (pool_time : Int → ℚ) :
    List Int → List WorkUnit → List RunRecord →
    List WorkUnit × Except String (List RunRecord)
  | [], trace, table => (trace, Except.ok table)
  | count :: rest, trace, table =>
    if count < 1 then
      (trace, Except.error "ValueError: Number of processes must be at least 1")
    else
      match fdiv baseline_time (pool_time count) with
      | Except.error e => (trace ++ tasks, Except.error e)
      | Except.ok s =>
        pool_loop tasks baseline_time pool_time rest (trace ++ tasks)
          (table ++ [⟨count, pool_time count, s⟩])

/-- Steps 2 to 3 of parallel_process.main with the batch, the configured
worker_counts (hardcoded to [2, 4, 8] in the source) and the measured wall
times as parameters: the baseline 1-worker comprehension first processes
every task once (initial trace = tasks) and seeds the table with the row
(1, baseline_time, 1.0); then the pool loop runs. Returns the units
processed in order together with the resulting table or the uncaught
exception. -/
def parallel_main (tasks : List WorkUnit) (worker_counts : List Int)
    (baseline_time : ℚ) (pool_time : Int → ℚ) :
    List WorkUnit × Except String (List RunRecord) :=
  pool_loop tasks baseline_time pool_time worker_counts tasks
    [⟨1, baseline_time, 1⟩]

/-- SEQUENTIAL_TIME from distributed_sim.main line 104: a hardcoded
constant, not a measured value. -/
def SEQUENTIAL_TIME : ℚ := 1824 / 100

/-- The efficiency computation of distributed_sim.main line 170: it
divides the hardcoded SEQUENTIAL_TIME by the measured distributed wall
time, taking no measured baseline as input at all. -/
def distributed_efficiency (total_distributed_time : ℚ) : Except String ℚ :=
  fdiv SEQUENTIAL_TIME total_distributed_time

/-- C1 (code bug): in distributed mode the efficiency is NOT computed from
a measured baseline of the same batch: distributed_efficiency depends only
on the hardcoded SEQUENTIAL_TIME = 18.24. For a run whose measured
1-worker baseline is 2 s and whose distributed wall time is 2 s, the code
reports efficiency 9.12 while the claimed formula baseline / elapsed gives
1, so the two disagree. -/
theorem C1_distributed_baseline_hardcoded :
    (∀ t : ℚ, distributed_efficiency t = fdiv SEQUENTIAL_TIME t) ∧
    distributed_efficiency 2 = Except.ok (228 / 25) ∧
    fdiv (2 : ℚ) 2 = Except.ok 1 ∧
    ((228 / 25 : ℚ) ≠ 1) := by
  refine ⟨fun t => rfl, ?_, ?_, by norm_num⟩
  · unfold distributed_efficiency fdiv SEQUENTIAL_TIME
    rw [if_neg (by norm_num)]
    norm_num
  · unfold fdiv
    rw [if_neg (by norm_num)]
    norm_num

/-- C6 (code bug): an empty batch is not special-cased. With measured
overheads 0.5 s for the baseline loop and 0.25 s for the empty pool run,
the table contains a row with elapsed 0.25 and speedup 2, contradicting
elapsed_seconds = 0 and speedup = 1.0; and with idealized zero wall times
the speedup division raises ZeroDivisionError. -/
theorem C6_empty_batch_not_trivial :
    parallel_main [] [2] (1/2) (fun _ => 1/4)
      = ([], Except.ok [⟨1, 1/2, 1⟩, ⟨2, 1/4, 2⟩]) ∧
    ((1/4 : ℚ) ≠ 0) ∧ ((2 : ℚ) ≠ 1) ∧
    parallel_main [] [2] 0 (fun _ => 0)
      = ([], Except.error "ZeroDivisionError") := by
  refine ⟨?_, by norm_num, by norm_num, ?_⟩
  · unfold parallel_main pool_loop fdiv
    norm_num [pool_loop]
  · unfold parallel_main pool_loop fdiv
    norm_num [pool_loop]

/-- C7 (code bug): a non-positive worker count does not fail immediately
with a ConfigurationError before any unit is processed: the baseline run
has already processed the entire batch by the time the pool loop reaches
the invalid count, and the failure that then surfaces is the ValueError
raised inside multiprocessing.Pool, not a ConfigurationError. -/
theorem C7_no_early_configuration_check (tasks : List WorkUnit)
    (c : Int) (rest : List Int) (baseline_time : ℚ) (pool_time : Int → ℚ)
    (hc : c ≤ 0) :
    parallel_main tasks (c :: rest) baseline_time pool_time
      = (tasks, Except.error "ValueError: Number of processes must be at least 1") := by
  unfold parallel_main
  rw [pool_loop]
  rw [if_pos (by omega : c < 1)]

/-- C7 witness: worker_counts starting with 0 on a one-unit batch: that
unit is processed (by the baseline run) before the ValueError surfaces. -/
theorem C7_no_early_configuration_check_witness :
    ((0 : Int) ≤ 0) ∧
    parallel_main [⟨"a.jpg", "out/a.jpg"⟩] [0, 4] 1 (fun _ => 1)
      = ([⟨"a.jpg", "out/a.jpg"⟩],
          Except.error "ValueError: Number of processes must be at least 1") :=
  ⟨by decide,
    C7_no_early_configuration_check [⟨"a.jpg", "out/a.jpg"⟩] 0 [4] 1
      (fun _ => 1) (by decide)⟩

/-- One (node_id, num_images, time_taken) result tuple put on the queue by
node_worker in distributed_sim.py line 72. -/
structure NodeResult where
  node_id : Int
  unit_count : Nat
  elapsed_seconds : ℚ
deriving DecidableEq, Repr

/-- Python tuple comparison on (node_id, num_images, time_taken):
lexicographic, first by node_id, then unit count, then elapsed time. This
is the order node_times.sort() uses in distributed_sim.main line 157. -/
def tuple_le (a b : NodeResult) : Prop :=
  a.node_id < b.node_id ∨ (a.node_id = b.node_id ∧
    (a.unit_count < b.unit_count ∨ (a.unit_count = b.unit_count ∧
      a.elapsed_seconds ≤ b.elapsed_seconds)))

instance tuple_le_dec : DecidableRel tuple_le := fun a b => by
  unfold tuple_le
  infer_instance

instance tuple_le_total : IsTotal NodeResult tuple_le := by
  constructor
  intro a b
  unfold tuple_le
  rcases lt_trichotomy a.node_id b.node_id with h | h | h
  · exact Or.inl (Or.inl h)
  · rcases lt_trichotomy a.unit_count b.unit_count with h2 | h2 | h2
    · exact Or.inl (Or.inr ⟨h, Or.inl h2⟩)
    · rcases le_total a.elapsed_seconds b.elapsed_seconds with h3 | h3
      · exact Or.inl (Or.inr ⟨h, Or.inr ⟨h2, h3⟩⟩)
      · exact Or.inr (Or.inr ⟨h.symm, Or.inr ⟨h2.symm, h3⟩⟩)
    · exact Or.inr (Or.inr ⟨h.symm, Or.inl h2⟩)
  · exact Or.inr (Or.inl h)

instance tuple_le_trans : IsTrans NodeResult tuple_le := by
  constructor
  intro a b c hab hbc
  unfold tuple_le at hab hbc ⊢
  rcases hab with h1 | ⟨e1, h1⟩ <;> rcases hbc with h2 | ⟨e2, h2⟩
  · exact Or.inl (lt_trans h1 h2)
  · exact Or.inl (by rw [← e2]; exact h1)
  · exact Or.inl (by rw [e1]; exact h2)
  · refine Or.inr ⟨e1.trans e2, ?_⟩
    rcases h1 with g1 | ⟨f1, g1⟩ <;> rcases h2 with g2 | ⟨f2, g2⟩
    · exact Or.inl (Nat.lt_trans g1 g2)
    · exact Or.inl (by rw [← f2]; exact g1)
    · exact Or.inl (by rw [f1]; exact g2)
    · exact Or.inr ⟨f1.trans f2, le_trans g1 g2⟩

instance tuple_le_antisymm : IsAntisymm NodeResult tuple_le := by
  constructor
  intro a b hab hba
  obtain ⟨a1, a2, a3⟩ := a
  obtain ⟨b1, b2, b3⟩ := b
  unfold tuple_le at hab hba
  simp only at hab hba
  simp only [NodeResult.mk.injEq]
  rcases hab with h1 | ⟨e1, h1⟩
  · rcases hba with h2 | ⟨e2, h2⟩
    · exact absurd h2 (not_lt.mpr (le_of_lt h1))
    · exact absurd h1 (by rw [e2]; exact lt_irrefl a1)
  · rcases hba with h2 | ⟨e2, h2⟩
    · exact absurd h2 (by rw [e1]; exact lt_irrefl b1)
    · refine ⟨e1, ?_⟩
      rcases h1 with g1 | ⟨f1, g1⟩
      · rcases h2 with g2 | ⟨f2, g2⟩
        · exact absurd g2 (Nat.not_lt.mpr (Nat.le_of_lt g1))
        · exact absurd g1 (by rw [f2]; exact lt_irrefl a2)
      · rcases h2 with g2 | ⟨f2, g2⟩
        · exact absurd g2 (by rw [f1]; exact lt_irrefl b2)
        · exact ⟨f1, le_antisymm g1 g2⟩

/-- node_times.sort() from distributed_sim.main lines 151 to 157: the
result tuples drained from the queue in whatever order the nodes completed
are sorted in ascending tuple order before the summary is printed. -/
def aggregate_nodes (raw : List NodeResult) : List NodeResult :=
  List.insertionSort tuple_le raw

theorem pool_loop_ok (tasks : List WorkUnit) (bt : ℚ) (pt : Int → ℚ) :
    ∀ (counts : List Int) (trace : List WorkUnit) (table : List RunRecord),
      (∀ c ∈ counts, 1 ≤ c ∧ pt c ≠ 0) →
      (pool_loop tasks bt pt counts trace table).2
        = Except.ok (table ++ counts.map (fun c => ⟨c, pt c, bt / pt c⟩)) := by
  intro counts
  induction counts with
  | nil =>
    intro trace table h
    simp [pool_loop]
  | cons c rest ih =>
    intro trace table h
    have hc : 1 ≤ c ∧ pt c ≠ 0 := h c (List.mem_cons_self c rest)
    have hrest : ∀ x ∈ rest, 1 ≤ x ∧ pt x ≠ 0 :=
      fun x hx => h x (List.mem_cons_of_mem c hx)
    have hf : fdiv bt (pt c) = Except.ok (bt / pt c) := by
      unfold fdiv
      rw [if_neg hc.2]
    calc (pool_loop tasks bt pt (c :: rest) trace table).2
        = (pool_loop tasks bt pt rest (trace ++ tasks)
            (table ++ [⟨c, pt c, bt / pt c⟩])).2 := by
          rw [pool_loop, if_neg (by omega : ¬ c < 1), hf]
      _ = Except.ok ((table ++ [⟨c, pt c, bt / pt c⟩])
            ++ rest.map (fun x => ⟨x, pt x, bt / pt x⟩)) := ih _ _ hrest
      _ = Except.ok (table ++ (c :: rest).map (fun x => ⟨x, pt x, bt / pt x⟩)) := by
          simp

/-- C8: report rows are ordered by id regardless of completion order. For
the distributed summary: whatever completion order the queue yields (any
permutation of the node results), the aggregation sorts it, the sorted
list is ascending in node_id, holds exactly the produced results, and is
the same list for every completion order. For the pool table: with the
source worker_counts [2, 4, 8], the table is the baseline 1-worker row
followed by the rows for 2, 4 and 8 workers, whose worker_count column
[1, 2, 4, 8] is strictly ascending. -/
theorem C8_report_sorted_by_id (raw completed : List NodeResult)
    (hperm : completed.Perm raw)
    (tasks : List WorkUnit) (bt : ℚ) (pt : Int → ℚ)
    (hpt : ∀ c ∈ ([2, 4, 8] : List Int), 1 ≤ c ∧ pt c ≠ 0) :
    (aggregate_nodes completed).Perm raw ∧
    List.Sorted (fun a b : NodeResult => a.node_id ≤ b.node_id)
      (aggregate_nodes completed) ∧
    aggregate_nodes completed = aggregate_nodes raw ∧
    (parallel_main tasks [2, 4, 8] bt pt).2
      = Except.ok [⟨1, bt, 1⟩, ⟨2, pt 2, bt / pt 2⟩, ⟨4, pt 4, bt / pt 4⟩,
          ⟨8, pt 8, bt / pt 8⟩] ∧
    List.Chain' (fun a b : Int => a < b)
      (([⟨1, bt, 1⟩, ⟨2, pt 2, bt / pt 2⟩, ⟨4, pt 4, bt / pt 4⟩,
          ⟨8, pt 8, bt / pt 8⟩] : List RunRecord).map RunRecord.worker_count) := by
  have hsorted := List.sorted_insertionSort tuple_le completed
  refine ⟨(List.perm_insertionSort tuple_le completed).trans hperm, ?_, ?_, ?_, ?_⟩
  · exact hsorted.imp (fun hab => by
      unfold tuple_le at hab
      rcases hab with h | ⟨e, _⟩
      · exact le_of_lt h
      · exact le_of_eq e)
  · exact List.eq_of_perm_of_sorted
      ((List.perm_insertionSort tuple_le completed).trans
        (hperm.trans (List.perm_insertionSort tuple_le raw).symm))
      hsorted (List.sorted_insertionSort tuple_le raw)
  · rw [parallel_main, pool_loop_ok tasks bt pt [2, 4, 8] tasks _ hpt]
    rfl
  · simp

/-- C8 witness: two node results arriving in completion order node 2 then
node 1 are re-sorted to node-id order, and a pool run with unit wall times
yields the table rows for worker counts 1, 2, 4, 8 in ascending order. -/
theorem C8_report_sorted_by_id_witness :
    ([⟨2, 2, 5⟩, ⟨1, 3, 7⟩] : List NodeResult).Perm [⟨1, 3, 7⟩, ⟨2, 2, 5⟩] ∧
    (∀ c ∈ ([2, 4, 8] : List Int), 1 ≤ c ∧ (fun _ : Int => (1 : ℚ)) c ≠ 0) ∧
    ((aggregate_nodes [⟨2, 2, 5⟩, ⟨1, 3, 7⟩]).Perm [⟨1, 3, 7⟩, ⟨2, 2, 5⟩] ∧
      List.Sorted (fun a b : NodeResult => a.node_id ≤ b.node_id)
        (aggregate_nodes [⟨2, 2, 5⟩, ⟨1, 3, 7⟩]) ∧
      aggregate_nodes [⟨2, 2, 5⟩, ⟨1, 3, 7⟩]
        = aggregate_nodes [⟨1, 3, 7⟩, ⟨2, 2, 5⟩] ∧
      (parallel_main [] [2, 4, 8] 1 (fun _ => 1)).2
        = Except.ok [⟨1, 1, 1⟩, ⟨2, 1, 1 / 1⟩, ⟨4, 1, 1 / 1⟩, ⟨8, 1, 1 / 1⟩] ∧
      List.Chain' (fun a b : Int => a < b)
        (([⟨1, 1, 1⟩, ⟨2, 1, 1 / 1⟩, ⟨4, 1, 1 / 1⟩,
            ⟨8, 1, 1 / 1⟩] : List RunRecord).map RunRecord.worker_count)) := by
  refine ⟨by decide, by norm_num, ?_⟩
  exact C8_report_sorted_by_id [⟨1, 3, 7⟩, ⟨2, 2, 5⟩] [⟨2, 2, 5⟩, ⟨1, 3, 7⟩]
    (by decide) [] 1 (fun _ => 1) (by norm_num)

/-- A filesystem path, modelled as its list of components relative to
SCRIPT_DIR (the directory of the script, a common prefix of every
configured path in distributed_sim.py). -/
abbrev FsPath := List String

/-- SOURCE_DIR from distributed_sim.py line 14, relative to SCRIPT_DIR. -/
def SOURCE_DIR : FsPath := ["images_dataset"]

/-- OUTPUT_DIR_NODE1 from distributed_sim.py line 15, relative to
SCRIPT_DIR. -/
def OUTPUT_DIR_NODE1 : FsPath := ["output_dist_node1"]

/-- OUTPUT_DIR_NODE2 from distributed_sim.py line 16, relative to
SCRIPT_DIR. -/
def OUTPUT_DIR_NODE2 : FsPath := ["output_dist_node2"]

/-- os.path.relpath(p, base) for a path p lying below base: it strips the
leading base components, as in node_worker line 60. -/
def relpath (p base : FsPath) : FsPath := p.drop base.length

/-- The output path node_worker writes for one input (lines 60 to 61):
the output directory of the node joined with the input path relative to
SOURCE_DIR. -/
def node_output_path (output_dir : FsPath) (input_path : FsPath) : FsPath :=
  output_dir ++ relpath input_path SOURCE_DIR

/-- Every output location written during the distributed run: node 1 maps
its partition (the first images_per_node inputs) into OUTPUT_DIR_NODE1,
node 2 maps the rest into OUTPUT_DIR_NODE2 (main lines 114 to 118 and
node_worker lines 58 to 63). -/
def all_output_paths (all_image_paths : List FsPath) : List FsPath :=
  let c := images_per_node all_image_paths.length NUM_NODES
  ((all_image_paths.take c).map (node_output_path OUTPUT_DIR_NODE1)) ++
    ((all_image_paths.drop c).map (node_output_path OUTPUT_DIR_NODE2))

theorem node_output_path_inj_on (d : FsPath) {p q : FsPath}
    (hp : ∃ r, p = SOURCE_DIR ++ r) (hq : ∃ r, q = SOURCE_DIR ++ r)
    (h : node_output_path d p = node_output_path d q) : p = q := by
  obtain ⟨rp, rfl⟩ := hp
  obtain ⟨rq, rfl⟩ := hq
  unfold node_output_path relpath at h
  rw [List.drop_left, List.drop_left] at h
  rw [List.append_cancel_left h]

/-- C9: for distinct input paths below SOURCE_DIR, the output locations of
the distributed run are pairwise distinct: the two nodes write into
separate per-node directories and within a node the relative path is kept,
so no two units map to the same output location. -/
theorem C9_output_paths_pairwise_distinct (all_image_paths : List FsPath)
    (hnodup : all_image_paths.Nodup)
    (hsrc : ∀ p ∈ all_image_paths, ∃ r, p = SOURCE_DIR ++ r) :
    (all_output_paths all_image_paths).Nodup := by
  simp only [all_output_paths]
  rw [List.nodup_append]
  refine ⟨?_, ?_, ?_⟩
  · apply List.Nodup.map_on
    · intro x hx y hy hxy
      exact node_output_path_inj_on OUTPUT_DIR_NODE1
        (hsrc x (List.mem_of_mem_take hx)) (hsrc y (List.mem_of_mem_take hy)) hxy
    · exact hnodup.sublist (List.take_sublist _ _)
  · apply List.Nodup.map_on
    · intro x hx y hy hxy
      exact node_output_path_inj_on OUTPUT_DIR_NODE2
        (hsrc x (List.mem_of_mem_drop hx)) (hsrc y (List.mem_of_mem_drop hy)) hxy
    · exact hnodup.sublist (List.drop_sublist _ _)
  · intro a ha hb
    obtain ⟨x, _, hax⟩ := List.mem_map.mp ha
    obtain ⟨y, _, hby⟩ := List.mem_map.mp hb
    rw [← hax] at hby
    unfold node_output_path OUTPUT_DIR_NODE1 OUTPUT_DIR_NODE2 at hby
    exact absurd hby (by simp)

/-- C9 witness: two distinct inputs below SOURCE_DIR yield pairwise
distinct output locations. -/
theorem C9_output_paths_pairwise_distinct_witness :
    ([["images_dataset", "cats", "1.jpg"], ["images_dataset", "2.jpg"]] :
        List FsPath).Nodup ∧
    (∀ p ∈ ([["images_dataset", "cats", "1.jpg"], ["images_dataset", "2.jpg"]] :
        List FsPath), ∃ r, p = SOURCE_DIR ++ r) ∧
    (all_output_paths
      [["images_dataset", "cats", "1.jpg"], ["images_dataset", "2.jpg"]]).Nodup := by
  have hsrc : ∀ p ∈ ([["images_dataset", "cats", "1.jpg"],
      ["images_dataset", "2.jpg"]] : List FsPath), ∃ r, p = SOURCE_DIR ++ r := by
    intro p hp
    rcases List.mem_cons.mp hp with rfl | hp2
    · exact ⟨["cats", "1.jpg"], rfl⟩
    · rcases List.mem_cons.mp hp2 with rfl | h
      · exact ⟨["2.jpg"], rfl⟩
      · exact absurd h (List.not_mem_nil p)
  exact ⟨by decide, hsrc,
    C9_output_paths_pairwise_distinct _ (by decide) hsrc⟩

end PDCLab
